import Mathlib

/-!
Verification of the Azure architecture diagram generator
(`azure_diagram_server.py`): a shallow embedding of the text-to-graph
extractor (`process_text_with_nlp`, `_mock_nlp_processing`) and of the
graph-to-diagram renderer (`generate_diagram_from_json`), with theorems
checking the natural-language specification against the code.
-/

namespace AzureDiagrams

/-! ## String helpers (Python `str.lower` and the `in` substring test) -/

/-- ASCII lower-casing of a string, modelling Python `description.lower()`
as used on the keyword table (all keywords are ASCII). -/
def pyLower (s : String) : String :=
  String.mk (s.data.map Char.toLower)

/-- Whether `needle` occurs at the start of `hay` (character lists). -/
def startsWithCL : List Char → List Char → Bool
  | [], _ => true
  | _ :: _, [] => false
  | a :: as, b :: bs => a == b && startsWithCL as bs

/-- Whether `needle` occurs somewhere in `hay` (character lists). -/
def subOccurs (needle : List Char) : List Char → Bool
  | [] => needle.isEmpty
  | c :: rest => startsWithCL needle (c :: rest) || subOccurs needle rest

/-- Python `needle in hay` substring containment. -/
def containsSub (hay needle : String) : Bool :=
  subOccurs needle.data hay.data

/-! ## Resource graph data model (the JSON shape produced by extraction) -/

/-- One resource entry: `{"name": ..., "type": ..., "attributes": {...}}`. -/
structure Resource where
  name : String
  type : String
  attributes : List (String × String)
deriving Repr, DecidableEq

/-- One relationship entry: `{"source": ..., "target": ..., "type": ...}`. -/
structure Relationship where
  source : String
  target : String
  type : String
deriving Repr, DecidableEq

/-- One cluster entry: `{"name": ..., "resources": [...]}`. -/
structure Cluster where
  name : String
  resources : List String
deriving Repr, DecidableEq

/-- The structured JSON handed from extraction to rendering. -/
structure ResourceGraph where
  diagram_label : String
  resources : List Resource
  relationships : List Relationship
  clusters : List Cluster
deriving Repr, DecidableEq

/-! ## The deterministic fallback extractor (`_mock_nlp_processing`) -/

/-- The resource appended when "web app"/"webapp" matches. -/
def webAppResource : Resource :=
  { name := "Web Application", type := "Azure.WebApp",
    attributes := [("location", "East US"), ("sku", "S1")] }

/-- The resource appended when "database"/"sql" matches. -/
def sqlResource : Resource :=
  { name := "SQL Database", type := "Azure.SQLDatabase",
    attributes := [("location", "East US"), ("sku", "S2")] }

/-- The resource appended when "storage" matches. -/
def storageResource : Resource :=
  { name := "Storage Account", type := "Azure.StorageAccount",
    attributes := [("location", "East US"), ("sku", "Standard_LRS")] }

/-- The resource appended when "function" matches. -/
def functionResource : Resource :=
  { name := "Function App", type := "Azure.FunctionApp",
    attributes := [("location", "East US"), ("sku", "Consumption")] }

/-- The `for i in range(len(resources) - 1)` chain-building loop. -/
def chainRels : List Resource → List Relationship
  | r1 :: r2 :: rest =>
    { source := r1.name, target := r2.name, type := "connects_to" } :: chainRels (r2 :: rest)
  | _ => []

/-- The resource list accumulated by the four keyword checks of
`_mock_nlp_processing`, in program order. -/
def mockResources (description : String) : List Resource :=
  let d := pyLower description
  (if containsSub d "web app" || containsSub d "webapp" then [webAppResource] else []) ++
  (if containsSub d "database" || containsSub d "sql" then [sqlResource] else []) ++
  (if containsSub d "storage" then [storageResource] else []) ++
  (if containsSub d "function" then [functionResource] else [])

/-- The method `AzureDiagramGenerator._mock_nlp_processing`: keyword-table
extraction. -/
def mock_nlp_processing (description : String) : ResourceGraph :=
  let resources : List Resource := mockResources description
  let relationships : List Relationship :=
    if resources.length > 1 then chainRels resources else []
  let clusters : List Cluster :=
    if resources.isEmpty then [] else
      [{ name := "Resource Group", resources := resources.map (fun r => r.name) }]
  { diagram_label := "Mock Architecture Diagram",
    resources := resources,
    relationships := relationships,
    clusters := clusters }

/-! ## The strategy-selection wrapper (`process_text_with_nlp`) -/

/-- Outcome of one remote Azure OpenAI call: a parsed graph, or an
exception (transport error, non-2xx status, malformed JSON, ...). -/
inductive RemoteOutcome where
  | ok (graph : ResourceGraph)
  | fail (msg : String)
deriving Repr, DecidableEq

/-- The method `AzureDiagramGenerator.process_text_with_nlp`: use the mock when the
Azure OpenAI configuration is missing; otherwise try the OpenAI client
(when the library imported), then the raw-requests path, and fall back to
the mock when both fail. -/
def process_text_with_nlp (hasConfig openaiAvailable : Bool)
    (clientOutcome requestsOutcome : RemoteOutcome)
    (description : String) : ResourceGraph :=
  if !hasConfig then
    mock_nlp_processing description
  else
    match (if openaiAvailable then clientOutcome else RemoteOutcome.fail "client unavailable") with
    | RemoteOutcome.ok g => g
    | RemoteOutcome.fail _ =>
      match requestsOutcome with
      | RemoteOutcome.ok g => g
      | RemoteOutcome.fail _ => mock_nlp_processing description

/-! ## The renderer (`generate_diagram_from_json`) -/

/-- The node classes the server imports from the diagrams library, plus
the generic fallback class defined in the file. -/
inductive NodeClass where
  | AppServices
  | FunctionApps
  | VirtualMachines
  | SQLDatabases
  | CosmosDb
  | StorageAccounts
  | BlobStorage
  | LoadBalancers
  | ApplicationGateway
  | VirtualNetworks
  | KeyVaults
  | ServiceBus
  | LogAnalyticsWorkspaces
  | MachineLearningServices
  | GenericCompute
deriving Repr, DecidableEq

/-- The `AZURE_NODE_MAP` dictionary mapping resource-type strings to
diagram node classes. -/
def AZURE_NODE_MAP : List (String × NodeClass) :=
  [("Azure.WebApp", NodeClass.AppServices),
   ("Azure.FunctionApp", NodeClass.FunctionApps),
   ("Azure.VirtualMachine", NodeClass.VirtualMachines),
   ("Azure.SQLDatabase", NodeClass.SQLDatabases),
   ("Azure.CosmosDB", NodeClass.CosmosDb),
   ("Azure.StorageAccount", NodeClass.StorageAccounts),
   ("Azure.BlobStorage", NodeClass.BlobStorage),
   ("Azure.LoadBalancer", NodeClass.LoadBalancers),
   ("Azure.ApplicationGateway", NodeClass.ApplicationGateway),
   ("Azure.VirtualNetwork", NodeClass.VirtualNetworks),
   ("Azure.KeyVault", NodeClass.KeyVaults),
   ("Azure.ServiceBus", NodeClass.ServiceBus),
   ("Azure.LogAnalytics", NodeClass.LogAnalyticsWorkspaces),
   ("Azure.MachineLearning", NodeClass.MachineLearningServices),
   ("Azure.Generic", NodeClass.GenericCompute)]

/-- Python `AZURE_NODE_MAP.get(resource["type"], AZURE_NODE_MAP["Azure.Generic"])`:
look the type string up, defaulting to the entry for `"Azure.Generic"`. -/
def lookupNodeClass (t : String) : NodeClass :=
  match AZURE_NODE_MAP.lookup t with
  | some c => c
  | none =>
    match AZURE_NODE_MAP.lookup "Azure.Generic" with
    | some c => c
    | none => NodeClass.GenericCompute

/-- One node-instantiation event during rendering: which cluster scope it
happened inside (`none` = top level), the resource name the node is
registered under, and the node class that was constructed. -/
structure NodeInst where
  inCluster : Option Nat
  name : String
  cls : NodeClass
deriving Repr, DecidableEq

/-- The cluster loop of `generate_diagram_from_json`: for cluster number
`i` onward, instantiate a node inside the cluster scope for every resource
whose name is listed in the `resources` list of the cluster. -/
def clusterInstEventsAux (resources : List Resource) :
    Nat → List Cluster → List NodeInst
  | _, [] => []
  | i, c :: cs =>
    resources.filterMap (fun r =>
      if c.resources.contains r.name then
        some { inCluster := some i, name := r.name, cls := lookupNodeClass r.type }
      else none) ++
    clusterInstEventsAux resources (i + 1) cs

/-- All cluster-scope node instantiations, in execution order. -/
def clusterInstEvents (resources : List Resource) (clusters : List Cluster) :
    List NodeInst :=
  clusterInstEventsAux resources 0 clusters

/-- Every node instantiation of one render call: the cluster loop followed
by the top-level loop over resources not yet in `cluster_nodes` (whose key
set is the names the cluster loop registered). -/
def allInstEvents (resources : List Resource) (clusters : List Cluster) :
    List NodeInst :=
  clusterInstEvents resources clusters ++
  resources.filterMap (fun r =>
    if ((clusterInstEvents resources clusters).map (fun e => e.name)).contains r.name then
      none
    else some { inCluster := none, name := r.name, cls := lookupNodeClass r.type })

/-- The relationship loop: draw `source >> target` exactly when both names
are keys of the `nodes` registry (which holds every instantiated node). -/
def renderEdges (resources : List Resource) (clusters : List Cluster)
    (relationships : List Relationship) : List (String × String) :=
  relationships.filterMap (fun rel =>
    if ((allInstEvents resources clusters).map (fun e => e.name)).contains rel.source &&
       ((allInstEvents resources clusters).map (fun e => e.name)).contains rel.target then
      some (rel.source, rel.target)
    else none)

/-! ### Filesystem and rendering-engine model -/

/-- A filesystem as an association list from paths to byte contents. -/
abbrev FS := List (String × List Nat)

/-- Python `os.unlink`: drop the entry at a path. -/
def fsUnlink (fs : FS) (p : String) : FS :=
  fs.filter (fun e => !(e.1 == p))

/-- Create or overwrite the file at a path. -/
def fsWrite (fs : FS) (p : String) (v : List Nat) : FS :=
  (p, v) :: fsUnlink fs p

/-- Python `open(p, "rb").read()`: the contents at a path, when present. -/
def fsRead (fs : FS) (p : String) : Option (List Nat) :=
  (fs.find? (fun e => e.1 == p)).map (fun e => e.2)

/-- How the diagram-rendering engine behaves when the `with Diagram(...)`
scope closes: the real library writes the artifact bytes to
`filename + "." + outformat`; the `MockDiagram` stand-in (diagrams library
not importable) writes nothing; or the engine raises (e.g. the Graphviz
executable is missing). -/
inductive EngineBehavior where
  | engine (output : List Nat)
  | mockDiagram
  | raises (msg : String)
deriving Repr, DecidableEq

/-- Result of one render call: returned bytes, or a propagated exception. -/
inductive RenderResult where
  | ok (bytes : List Nat)
  | err (msg : String)
deriving Repr, DecidableEq

/-- Whether a render call ended in an exception. -/
def RenderResult.isError : RenderResult → Bool
  | RenderResult.ok _ => false
  | RenderResult.err _ => true

/-- The arguments the renderer passes to the `Diagram(...)` constructor,
together with the node instantiations and edges drawn inside the scope. -/
structure DiagramCall where
  label : String
  filename : String
  direction : String
  outformat : String
  insts : List NodeInst
  edges : List (String × String)
deriving Repr, DecidableEq

/-- What one call to `generate_diagram_from_json` leaves behind: the
returned value or exception, the filesystem afterwards, and the diagram
call that was issued. -/
structure RenderOutcome where
  result : RenderResult
  fs : FS
  call : DiagramCall
deriving Repr, DecidableEq

/-- Python `tmp_path.rsplit(".", 1)[0]`: drop the last dot and everything
after it; the whole string when it has no dot. -/
def rsplitStemCL (s : List Char) : List Char :=
  match s.reverse.dropWhile (fun c => !(c == '.')) with
  | [] => s
  | _ :: rest => rest.reverse

/-- String version of `rsplitStemCL`. -/
def rsplitStem (s : String) : String :=
  String.mk (rsplitStemCL s.data)

/-- The post-scope block of `generate_diagram_from_json`: read the
artifact at the expected path, falling back to the original temp path and
unlinking whichever file was read; raise when neither read succeeds. -/
def readArtifactAndCleanup (fs2 : FS) (actual_file_path tmp_path : String)
    (call : DiagramCall) : RenderOutcome :=
  match fsRead fs2 actual_file_path with
  | some bytes =>
    { result := RenderResult.ok bytes, fs := fsUnlink fs2 actual_file_path, call := call }
  | none =>
    match fsRead fs2 tmp_path with
    | some bytes =>
      { result := RenderResult.ok bytes, fs := fsUnlink fs2 tmp_path, call := call }
    | none =>
      { result := RenderResult.err "Generated diagram file not found at expected location",
        fs := fs2, call := call }

/-- The method `AzureDiagramGenerator.generate_diagram_from_json`: create the named
temporary file (suffix `"." + output_format`, `delete=False`, so the empty
file exists on disk), strip the extension for the diagrams `filename`
argument, pick the direction, run the diagram scope, then read the
artifact at `tmp_path_no_ext + "." + output_format`, falling back to
`tmp_path`, deleting the file that was read; raise when neither exists.
`tmpName` is the extension-less name the tempfile module chose. -/
def generate_diagram_from_json (eng : EngineBehavior) (tmpName : String)
    (json_data : ResourceGraph) (output_format : String)
    (layout_direction : String) (fs0 : FS) : RenderOutcome :=
  let tmp_path := tmpName ++ "." ++ output_format
  let fs1 := fsWrite fs0 tmp_path []
  let tmp_path_no_ext := rsplitStem tmp_path
  let direction := if layout_direction == "TB" then "TB" else "LR"
  let call : DiagramCall :=
    { label := json_data.diagram_label,
      filename := tmp_path_no_ext,
      direction := direction,
      outformat := output_format,
      insts := allInstEvents json_data.resources json_data.clusters,
      edges := renderEdges json_data.resources json_data.clusters
                 json_data.relationships }
  match eng with
  | EngineBehavior.raises msg =>
    { result := RenderResult.err msg, fs := fs1, call := call }
  | EngineBehavior.engine out =>
    readArtifactAndCleanup (fsWrite fs1 (tmp_path_no_ext ++ "." ++ output_format) out)
      (tmp_path_no_ext ++ "." ++ output_format) tmp_path call
  | EngineBehavior.mockDiagram =>
    readArtifactAndCleanup fs1 (tmp_path_no_ext ++ "." ++ output_format) tmp_path call

/-- The empty graph used in concrete render scenarios. -/
def gEmpty : ResourceGraph :=
  { diagram_label := "Azure Architecture", resources := [],
    relationships := [], clusters := [] }

/-! ## Helper lemmas about the fallback extractor -/

/-- The chain loop links consecutive resources: it is the map of the
connects-to constructor over adjacent pairs. -/
theorem chainRels_eq_zip (l : List Resource) :
    chainRels l = (l.zip l.tail).map
      (fun p => { source := p.1.name, target := p.2.name, type := "connects_to" }) := by
  induction l with
  | nil => rfl
  | cons a l ih =>
    cases l with
    | nil => rfl
    | cons b rest =>
      simp only [chainRels, List.tail_cons, List.zip_cons_cons, List.map_cons] at ih ⊢
      exact congrArg _ ih

/-- The `len(resources) > 1` guard around the chain loop is redundant:
on shorter lists the loop body produces nothing anyway. -/
theorem ite_chainRels (l : List Resource) :
    (if l.length > 1 then chainRels l else []) = chainRels l := by
  match l with
  | [] => rfl
  | [a] => rfl
  | a :: b :: rest => simp [chainRels]

/-- Projections of the fallback output in terms of `mockResources`. -/
theorem mock_nlp_processing_eq (d : String) :
    mock_nlp_processing d =
      { diagram_label := "Mock Architecture Diagram",
        resources := mockResources d,
        relationships := chainRels (mockResources d),
        clusters := if (mockResources d).isEmpty then [] else
          [{ name := "Resource Group",
             resources := (mockResources d).map (fun r => r.name) }] } := by
  simp only [mock_nlp_processing, ite_chainRels]

/-- The fallback resource list only draws from the four fixed table
entries, in table order. -/
theorem mockResources_sublist (d : String) :
    (mockResources d).Sublist
      [webAppResource, sqlResource, storageResource, functionResource] := by
  have h : ∀ (b1 b2 b3 b4 : Bool),
      ((((if b1 then [webAppResource] else []) ++
         (if b2 then [sqlResource] else [])) ++
         (if b3 then [storageResource] else [])) ++
         (if b4 then [functionResource] else [])).Sublist
        [webAppResource, sqlResource, storageResource, functionResource] := by
    intro b1 b2 b3 b4
    cases b1 <;> cases b2 <;> cases b3 <;> cases b4 <;> decide
  exact h _ _ _ _

/-! ## Claim theorems: extraction -/

/-- C1: for every description, extraction is total (returns a
`ResourceGraph`): the result is either a graph delivered by one of the two
remote transports, or the deterministic fallback `mock_nlp_processing`;
in particular missing configuration and every remote failure end in the
fallback, which is a total function with no failure path. -/
theorem extraction_never_raises (hasConfig openaiAvailable : Bool)
    (co ro : RemoteOutcome) (d : String) :
    process_text_with_nlp hasConfig openaiAvailable co ro d = mock_nlp_processing d ∨
    ∃ g, (co = RemoteOutcome.ok g ∨ ro = RemoteOutcome.ok g) ∧
      process_text_with_nlp hasConfig openaiAvailable co ro d = g := by
  unfold process_text_with_nlp
  cases hasConfig with
  | false => exact Or.inl rfl
  | true =>
    cases openaiAvailable with
    | true =>
      cases co with
      | ok g => exact Or.inr ⟨g, Or.inl rfl, rfl⟩
      | fail m =>
        cases ro with
        | ok g => exact Or.inr ⟨g, Or.inr rfl, rfl⟩
        | fail m2 => exact Or.inl rfl
    | false =>
      cases ro with
      | ok g => exact Or.inr ⟨g, Or.inr rfl, rfl⟩
      | fail m2 => exact Or.inl rfl

/-- C2: with no remote configuration, extracting
"web app with sql database" deterministically yields the two-resource
WebApp-then-SQLDatabase graph with one connects-to relationship, one
"Resource Group" cluster holding both names, and the fixed mock label,
whatever the (unused) remote transports would have produced. -/
theorem extract_web_app_sql_database (openaiAvailable : Bool)
    (co ro : RemoteOutcome) :
    process_text_with_nlp false openaiAvailable co ro "web app with sql database" =
      { diagram_label := "Mock Architecture Diagram",
        resources :=
          [{ name := "Web Application", type := "Azure.WebApp",
             attributes := [("location", "East US"), ("sku", "S1")] },
           { name := "SQL Database", type := "Azure.SQLDatabase",
             attributes := [("location", "East US"), ("sku", "S2")] }],
        relationships :=
          [{ source := "Web Application", target := "SQL Database",
             type := "connects_to" }],
        clusters :=
          [{ name := "Resource Group",
             resources := ["Web Application", "SQL Database"] }] } := by
  show mock_nlp_processing "web app with sql database" = _
  decide

/-- C5: for every description the fallback output has the fixed shape:
label "Mock Architecture Diagram"; the relationships are exactly the
consecutive-pair chain over the resources in append order, all of kind
"connects_to" (so n-1 of them for n ≥ 1 resources, none for n = 0); no
resources means no relationships and no clusters; at least one resource
means exactly one cluster "Resource Group" listing all names in order. -/
theorem mock_fallback_shape (d : String) :
    (mock_nlp_processing d).diagram_label = "Mock Architecture Diagram" ∧
    (mock_nlp_processing d).relationships =
      ((mock_nlp_processing d).resources.zip (mock_nlp_processing d).resources.tail).map
        (fun p => { source := p.1.name, target := p.2.name, type := "connects_to" }) ∧
    (mock_nlp_processing d).relationships.length
      = (mock_nlp_processing d).resources.length - 1 ∧
    ((mock_nlp_processing d).resources = [] →
      (mock_nlp_processing d).relationships = [] ∧
      (mock_nlp_processing d).clusters = []) ∧
    ((mock_nlp_processing d).resources ≠ [] →
      (mock_nlp_processing d).clusters =
        [{ name := "Resource Group",
           resources := (mock_nlp_processing d).resources.map (fun r => r.name) }]) := by
  refine ⟨?_, ?_, ?_, ?_, ?_⟩
  · simp [mock_nlp_processing_eq]
  · simp only [mock_nlp_processing_eq]
    exact chainRels_eq_zip _
  · simp only [mock_nlp_processing_eq]
    rw [chainRels_eq_zip]
    simp only [List.length_map, List.length_zip, List.length_tail]
    omega
  · simp only [mock_nlp_processing_eq]
    intro h
    simp [h, chainRels]
  · simp only [mock_nlp_processing_eq]
    intro h
    simp only [List.isEmpty_iff]
    rw [if_neg h]

/-- C5 witness: the shape theorem applied at the concrete description
"storage". -/
theorem mock_fallback_shape_witness :
    (mock_nlp_processing "storage").resources ≠ [] ∧
    (mock_nlp_processing "storage").clusters =
      [{ name := "Resource Group",
         resources := (mock_nlp_processing "storage").resources.map (fun r => r.name) }] :=
  ⟨by decide, (mock_fallback_shape "storage").2.2.2.2 (by decide)⟩

/-- C10: for every description the fallback resources form a sublist of
the fixed table [WebApp, SQLDatabase, StorageAccount, FunctionApp] — so
they appear in table order, at most once per keyword class, at most 4 in
total — and a description containing both "sql" and "database" still
yields the single SQLDatabase resource. -/
theorem mock_resources_table_order (d : String) :
    (mock_nlp_processing d).resources.Sublist
      [webAppResource, sqlResource, storageResource, functionResource] ∧
    (mock_nlp_processing d).resources.length ≤ 4 ∧
    (mock_nlp_processing d).resources.countP
      (fun r => r.type == "Azure.SQLDatabase") ≤ 1 ∧
    (mock_nlp_processing "sql and database").resources = [sqlResource] := by
  have hs : (mock_nlp_processing d).resources.Sublist
      [webAppResource, sqlResource, storageResource, functionResource] := by
    simp only [mock_nlp_processing_eq]
    exact mockResources_sublist d
  refine ⟨hs, ?_, ?_, by decide⟩
  · exact le_trans hs.length_le (by decide)
  · exact le_trans (hs.countP_le _) (by decide)

/-! ## Helper lemmas about node instantiation in the renderer -/

/-- Counting events with a given name among those one cluster scope emits:
nothing unless the cluster lists the name, else one event per resource
entry carrying that name. -/
theorem countP_name_filterMap (rs : List Resource) (cond : String → Bool)
    (oi : Option Nat) (n : String) :
    ((rs.filterMap (fun r =>
        if cond r.name then
          some ({ inCluster := oi, name := r.name,
                  cls := lookupNodeClass r.type } : NodeInst)
        else none)).countP (fun e => e.name == n))
      = if cond n then rs.countP (fun r => r.name == n) else 0 := by
  induction rs with
  | nil => simp
  | cons r rs ih =>
    by_cases hn : r.name = n
    · subst hn
      by_cases hc : cond r.name
      · simp [List.filterMap_cons, hc, List.countP_cons, ih]
      · simp [List.filterMap_cons, hc, List.countP_cons, ih]
    · by_cases hc : cond r.name
      · simp [List.filterMap_cons, hc, List.countP_cons, ih, hn]
      · simp [List.filterMap_cons, hc, ih, hn]

/-- Same count for the top-level loop, whose filter is reversed
(`none` when the name is already registered by a cluster). -/
theorem countP_name_filterMap_top (rs : List Resource) (cond : String → Bool)
    (n : String) :
    ((rs.filterMap (fun r =>
        if cond r.name then none
        else some ({ inCluster := none, name := r.name,
                     cls := lookupNodeClass r.type } : NodeInst))).countP
      (fun e => e.name == n))
      = if cond n then 0 else rs.countP (fun r => r.name == n) := by
  induction rs with
  | nil => simp
  | cons r rs ih =>
    by_cases hn : r.name = n
    · subst hn
      by_cases hc : cond r.name
      · simp [List.filterMap_cons, hc, List.countP_cons, ih]
      · simp [List.filterMap_cons, hc, List.countP_cons, ih]
    · by_cases hc : cond r.name
      · simp [List.filterMap_cons, hc, ih, hn]
      · simp [List.filterMap_cons, hc, List.countP_cons, ih, hn]

/-- Events named `n` across the whole cluster loop: one per listing
cluster and per resource entry with that name. -/
theorem clusterInstEventsAux_countP (rs : List Resource) (n : String)
    (cs : List Cluster) (i : Nat) :
    (clusterInstEventsAux rs i cs).countP (fun e => e.name == n)
      = (cs.countP (fun c => c.resources.contains n))
          * (rs.countP (fun r => r.name == n)) := by
  induction cs generalizing i with
  | nil => simp [clusterInstEventsAux]
  | cons c cs ih =>
    simp only [clusterInstEventsAux, List.countP_append, List.countP_cons]
    rw [countP_name_filterMap rs (fun s => c.resources.contains s) (some i) n, ih]
    by_cases hm : n ∈ c.resources
    · have hc : c.resources.contains n = true := by simpa using hm
      rw [hc]
      simp only [if_true]
      ring
    · have hc : c.resources.contains n = false := by simpa using hm
      rw [hc]
      simp

/-- A name occurs among the event names iff some event carries it. -/
theorem mapName_contains_iff (l : List NodeInst) (n : String) :
    ((l.map (fun e => e.name)).contains n) = true ↔
      0 < l.countP (fun e => e.name == n) := by
  induction l with
  | nil => simp
  | cons e l ih =>
    by_cases h : e.name = n
    · simp [List.countP_cons, h]
    · simp only [List.map_cons, List.contains_cons, List.countP_cons]
      simp [h, Ne.symm h, ih]

/-- Events named `n` across a full render call: one per resource entry
with that name per listing cluster; exactly one per resource entry with
that name (at top level) when no cluster lists it. -/
theorem allInstEvents_countP (rs : List Resource) (cs : List Cluster) (n : String) :
    (allInstEvents rs cs).countP (fun e => e.name == n)
      = (rs.countP (fun r => r.name == n))
          * max (cs.countP (fun c => c.resources.contains n)) 1 := by
  unfold allInstEvents clusterInstEvents
  rw [List.countP_append _ _ _]
  rw [countP_name_filterMap_top rs
      (fun s => ((clusterInstEventsAux rs 0 cs).map (fun e => e.name)).contains s) n]
  rw [clusterInstEventsAux_countP]
  by_cases h : ((clusterInstEventsAux rs 0 cs).map (fun e => e.name)).contains n = true
  · rw [if_pos h]
    have hpos : 0 < (cs.countP (fun c => c.resources.contains n))
        * (rs.countP (fun r => r.name == n)) := by
      have h2 := (mapName_contains_iff _ n).mp h
      rwa [clusterInstEventsAux_countP] at h2
    have hKpos : 0 < cs.countP (fun c => c.resources.contains n) := by
      rcases Nat.eq_zero_or_pos (cs.countP (fun c => c.resources.contains n)) with h0 | h1
      · rw [h0] at hpos
        simp at hpos
      · exact h1
    rw [Nat.max_eq_left hKpos]
    ring
  · rw [if_neg h]
    have hzero : (cs.countP (fun c => c.resources.contains n))
        * (rs.countP (fun r => r.name == n)) = 0 := by
      by_contra hne
      apply h
      apply (mapName_contains_iff _ n).mpr
      rw [clusterInstEventsAux_countP]
      omega
    rcases Nat.mul_eq_zero.mp hzero with hK | hm
    · rw [hK]
      simp
    · rw [hm]
      simp

/-! ## Claim theorems: node instantiation and clusters -/

/-- C3 counterexample: with a single resource "X" listed by two clusters,
the renderer instantiates a node for "X" inside BOTH cluster scopes (the
second event carries cluster index 1): "X" is not assigned only to the
first cluster that lists it, and its node is duplicated. -/
theorem cluster_first_wins_counterexample :
    allInstEvents [{ name := "X", type := "Azure.WebApp", attributes := [] }]
        [{ name := "A", resources := ["X"] }, { name := "B", resources := ["X"] }]
      = [{ inCluster := some 0, name := "X", cls := NodeClass.AppServices },
         { inCluster := some 1, name := "X", cls := NodeClass.AppServices }] ∧
    ¬ ((allInstEvents [{ name := "X", type := "Azure.WebApp", attributes := [] }]
        [{ name := "A", resources := ["X"] }, { name := "B", resources := ["X"] }]).countP
          (fun e => e.name == "X") ≤ 1) := by decide

/-- C3 amended: during rendering a resource name is instantiated once per
resource entry carrying it and per cluster that lists it (clusters in
declaration order, resources in declaration order inside each cluster) —
not only in the first listing cluster; when no cluster lists the name,
each resource entry carrying it is instantiated exactly once, and then
every such node sits at top level (no duplication in that case). -/
theorem node_instantiation_count (rs : List Resource) (cs : List Cluster)
    (n : String) :
    ((allInstEvents rs cs).countP (fun e => e.name == n)
      = (rs.countP (fun r => r.name == n))
          * max (cs.countP (fun c => c.resources.contains n)) 1) ∧
    (cs.all (fun c => !(c.resources.contains n)) = true →
      ((allInstEvents rs cs).filter (fun e => e.name == n)).all
        (fun e => e.inCluster == none) = true) := by
  refine ⟨allInstEvents_countP rs cs n, ?_⟩
  intro h
  rw [List.all_eq_true]
  intro e he
  rw [List.mem_filter] at he
  obtain ⟨hmem, hname⟩ := he
  unfold allInstEvents clusterInstEvents at hmem
  rw [List.mem_append] at hmem
  rcases hmem with hce | htop
  · exfalso
    have hK : cs.countP (fun c => c.resources.contains n) = 0 := by
      rw [List.countP_eq_zero]
      intro c hc
      have h2 := (List.all_eq_true.mp h) c hc
      simp only [Bool.not_eq_true'] at h2
      simpa using h2
    have hpos : 0 < (clusterInstEventsAux rs 0 cs).countP (fun e => e.name == n) := by
      rw [List.countP_pos_iff]
      exact ⟨e, hce, hname⟩
    rw [clusterInstEventsAux_countP, hK] at hpos
    simp at hpos
  · rw [List.mem_filterMap] at htop
    obtain ⟨r, _, hr⟩ := htop
    by_cases hc :
        ((clusterInstEventsAux rs 0 cs).map (fun e => e.name)).contains r.name = true
    · rw [if_pos hc] at hr
      cases hr
    · rw [if_neg hc] at hr
      rw [Option.some_inj] at hr
      rw [← hr]
      rfl

/-- Any cluster-loop event originates from a resource entry, whose name
and mapped node class it carries. -/
theorem mem_clusterInstEventsAux (rs : List Resource) (e : NodeInst)
    (cs : List Cluster) (i : Nat) (he : e ∈ clusterInstEventsAux rs i cs) :
    ∃ r ∈ rs, e.name = r.name ∧ e.cls = lookupNodeClass r.type := by
  induction cs generalizing i with
  | nil => simp [clusterInstEventsAux] at he
  | cons c cs ih =>
    simp only [clusterInstEventsAux] at he
    rw [List.mem_append] at he
    rcases he with h1 | h2
    · rw [List.mem_filterMap] at h1
      obtain ⟨r, hr, hfr⟩ := h1
      by_cases hc : c.resources.contains r.name = true
      · rw [if_pos hc, Option.some_inj] at hfr
        exact ⟨r, hr, by rw [← hfr], by rw [← hfr]⟩
      · rw [if_neg hc] at hfr
        cases hfr
    · exact ih (i + 1) h2

/-- The names registered in the `nodes` dictionary during one render call
are exactly the names of the resources of the graph: every resource is
instantiated at least once (in a cluster or at top level), and every
instantiation comes from a resource. -/
theorem allInstEvents_names (rs : List Resource) (cs : List Cluster)
    (n : String) :
    n ∈ (allInstEvents rs cs).map (fun e => e.name) ↔
      n ∈ rs.map (fun r => r.name) := by
  constructor
  · intro h
    rw [List.mem_map] at h
    obtain ⟨e, he, hen⟩ := h
    unfold allInstEvents clusterInstEvents at he
    rw [List.mem_append] at he
    rcases he with hce | htop
    · obtain ⟨r, hr, hn, _⟩ := mem_clusterInstEventsAux rs e cs 0 hce
      rw [List.mem_map]
      exact ⟨r, hr, by rw [← hen, hn]⟩
    · rw [List.mem_filterMap] at htop
      obtain ⟨r, hr, hfr⟩ := htop
      by_cases hc : ((clusterInstEventsAux rs 0 cs).map
          (fun e => e.name)).contains r.name = true
      · rw [if_pos hc] at hfr
        cases hfr
      · rw [if_neg hc, Option.some_inj] at hfr
        rw [List.mem_map]
        refine ⟨r, hr, ?_⟩
        rw [← hen, ← hfr]
  · intro h
    rw [List.mem_map] at h
    obtain ⟨r, hr, hrn⟩ := h
    unfold allInstEvents
    rw [List.map_append, List.mem_append]
    by_cases hc : ((clusterInstEvents rs cs).map
        (fun e => e.name)).contains r.name = true
    · left
      have hm : r.name ∈ (clusterInstEvents rs cs).map (fun e => e.name) := by
        simpa using hc
      rwa [hrn] at hm
    · right
      rw [List.mem_map]
      refine ⟨{ inCluster := none, name := r.name, cls := lookupNodeClass r.type }, ?_, hrn⟩
      rw [List.mem_filterMap]
      exact ⟨r, hr, by rw [if_neg hc]⟩

/-- C3 amended witness: a resource listed by no cluster renders at top
level, at the concrete one-resource, one-unrelated-cluster input. -/
theorem node_instantiation_count_witness :
    ((allInstEvents [{ name := "X", type := "Azure.WebApp", attributes := [] }]
        [{ name := "A", resources := ["Y"] }]).filter
      (fun e => e.name == "X")).all (fun e => e.inCluster == none) = true :=
  (node_instantiation_count
    [{ name := "X", type := "Azure.WebApp", attributes := [] }]
    [{ name := "A", resources := ["Y"] }] "X").2 (by decide)

/-- C6: an edge (s, t) is drawn iff some relationship has those endpoints
and both names resolve in the registry — equivalently, both name a
resource of the graph; a relationship with an unresolved endpoint is
dropped from the edge list without disturbing the edges of the remaining
relationships (the node and cluster instantiations never depend on the
relationship list at all). -/
theorem relationship_edges (rs : List Resource) (cs : List Cluster)
    (rels pre post : List Relationship) (rel : Relationship) (s t : String) :
    (((s, t) ∈ renderEdges rs cs rels) ↔
      ((∃ q ∈ rels, q.source = s ∧ q.target = t) ∧
        s ∈ rs.map (fun r => r.name) ∧ t ∈ rs.map (fun r => r.name))) ∧
    ((rel.source ∉ rs.map (fun r => r.name) ∨ rel.target ∉ rs.map (fun r => r.name)) →
      renderEdges rs cs (pre ++ rel :: post) = renderEdges rs cs (pre ++ post)) := by
  constructor
  · constructor
    · intro h
      unfold renderEdges at h
      rw [List.mem_filterMap] at h
      obtain ⟨q, hq, hfq⟩ := h
      by_cases hc : (((allInstEvents rs cs).map (fun e => e.name)).contains q.source &&
          ((allInstEvents rs cs).map (fun e => e.name)).contains q.target) = true
      · rw [if_pos hc, Option.some_inj, Prod.mk.injEq] at hfq
        obtain ⟨hs, ht⟩ := hfq
        rw [Bool.and_eq_true] at hc
        obtain ⟨hcs, hct⟩ := hc
        refine ⟨⟨q, hq, hs, ht⟩, ?_, ?_⟩
        · rw [← hs, ← allInstEvents_names rs cs]
          simpa using hcs
        · rw [← ht, ← allInstEvents_names rs cs]
          simpa using hct
      · rw [if_neg hc] at hfq
        cases hfq
    · intro h
      obtain ⟨⟨q, hq, hs, ht⟩, hsm, htm⟩ := h
      unfold renderEdges
      rw [List.mem_filterMap]
      refine ⟨q, hq, ?_⟩
      have hcs : ((allInstEvents rs cs).map (fun e => e.name)).contains q.source = true := by
        rw [hs]
        have := (allInstEvents_names rs cs s).mpr hsm
        simpa using this
      have hct : ((allInstEvents rs cs).map (fun e => e.name)).contains q.target = true := by
        rw [ht]
        have := (allInstEvents_names rs cs t).mpr htm
        simpa using this
      rw [hcs, hct]
      rw [hs, ht]
      rfl
  · intro h
    unfold renderEdges
    rw [List.filterMap_append, List.filterMap_append]
    congr 1
    have hfalse : (((allInstEvents rs cs).map (fun e => e.name)).contains rel.source &&
        ((allInstEvents rs cs).map (fun e => e.name)).contains rel.target) = false := by
      rcases h with h1 | h1
      · have h2 : rel.source ∉ (allInstEvents rs cs).map (fun e => e.name) := by
          rw [allInstEvents_names]
          exact h1
        have h3 : ((allInstEvents rs cs).map (fun e => e.name)).contains rel.source = false := by
          simpa using h2
        rw [h3, Bool.false_and]
      · have h2 : rel.target ∉ (allInstEvents rs cs).map (fun e => e.name) := by
          rw [allInstEvents_names]
          exact h1
        have h3 : ((allInstEvents rs cs).map (fun e => e.name)).contains rel.target = false := by
          simpa using h2
        rw [h3, Bool.and_false]
    rw [List.filterMap_cons]
    rw [hfalse]
    rfl

/-- C6 witness: a relationship whose target names no resource is skipped
silently, leaving the edge list of the remaining relationships intact. -/
theorem relationship_edges_witness :
    renderEdges [{ name := "X", type := "Azure.WebApp", attributes := [] }] []
        ([] ++ ({ source := "X", target := "Ghost", type := "connects_to" } :
          Relationship) :: [])
      = renderEdges [{ name := "X", type := "Azure.WebApp", attributes := [] }] []
          ([] ++ []) :=
  (relationship_edges [{ name := "X", type := "Azure.WebApp", attributes := [] }]
    [] [] [] [] { source := "X", target := "Ghost", type := "connects_to" }
    "X" "Ghost").2 (Or.inr (by decide))

/-- C7: a type string with no entry in `AZURE_NODE_MAP` maps to the
generic node class, and the renderer instantiates that class instead of
raising: a resource with an unknown type yields exactly one Generic node
at top level. -/
theorem unknown_type_renders_generic (t : String)
    (h : AZURE_NODE_MAP.lookup t = none) :
    lookupNodeClass t = NodeClass.GenericCompute ∧
    ∀ nm attrs,
      allInstEvents [{ name := nm, type := t, attributes := attrs }] []
        = [{ inCluster := none, name := nm, cls := NodeClass.GenericCompute }] := by
  have h1 : lookupNodeClass t = NodeClass.GenericCompute := by
    unfold lookupNodeClass
    rw [h]
    rfl
  refine ⟨h1, ?_⟩
  intro nm attrs
  unfold allInstEvents clusterInstEvents
  simp [clusterInstEventsAux, h1]

/-- C7 witness: the concrete unknown type string "Azure.Nonexistent". -/
theorem unknown_type_renders_generic_witness :
    lookupNodeClass "Azure.Nonexistent" = NodeClass.GenericCompute ∧
    allInstEvents [{ name := "N", type := "Azure.Nonexistent", attributes := [] }] []
      = [{ inCluster := none, name := "N", cls := NodeClass.GenericCompute }] :=
  ⟨(unknown_type_renders_generic "Azure.Nonexistent" (by decide)).1,
   (unknown_type_renders_generic "Azure.Nonexistent" (by decide)).2 "N" []⟩

/-! ## Helper lemmas about the filesystem model and temp paths -/

/-- Reading a path just written yields the written bytes. -/
theorem fsRead_fsWrite_self (fs : FS) (p : String) (v : List Nat) :
    fsRead (fsWrite fs p v) p = some v := by
  simp [fsRead, fsWrite, List.find?_cons_of_pos]

/-- After unlinking a path, reading it fails. -/
theorem fsRead_fsUnlink_self (fs : FS) (p : String) :
    fsRead (fsUnlink fs p) p = none := by
  rw [fsRead, Option.map_eq_none', List.find?_eq_none]
  intro e he
  rw [fsUnlink, List.mem_filter] at he
  simp only [Bool.not_eq_true'] at he
  simp [he.2]

/-- Dropping a satisfying block before the first failure. -/
theorem dropWhile_append_of_all {α : Type} (p : α → Bool) (l1 l2 : List α)
    (h : ∀ x ∈ l1, p x = true) :
    (l1 ++ l2).dropWhile p = l2.dropWhile p := by
  induction l1 with
  | nil => rfl
  | cons a l ih =>
    rw [List.cons_append, List.dropWhile_cons, h a (by simp)]
    simp only [if_true]
    exact ih (fun x hx => h x (by simp [hx]))

/-- For a format string without a dot, the Python call
`(tmpName + "." + fmt).rsplit(".", 1)[0]` recovers `tmpName`: the
extension-stripped diagrams filename plus the format extension is the
temp path itself. -/
theorem rsplitStem_append (t fmt : String)
    (hfmt : fmt.data.all (fun c => !(c == '.')) = true) :
    rsplitStem (t ++ "." ++ fmt) = t := by
  unfold rsplitStem rsplitStemCL
  rw [String.data_append, String.data_append]
  have hdot : ("." : String).data = ['.'] := rfl
  rw [hdot]
  rw [List.append_assoc, List.reverse_append]
  have hrev : ((['.'] ++ fmt.data).reverse) = fmt.data.reverse ++ ['.'] := by
    rw [List.reverse_append]
    rfl
  rw [hrev, List.append_assoc]
  rw [dropWhile_append_of_all _ _ _ (by
    intro x hx
    rw [List.mem_reverse] at hx
    exact (List.all_eq_true.mp hfmt) x hx)]
  rw [List.singleton_append, List.dropWhile_cons]
  simp

/-- The read-back block keeps the diagram call unchanged. -/
theorem readArtifactAndCleanup_call (fs2 : FS) (a t : String) (c : DiagramCall) :
    (readArtifactAndCleanup fs2 a t c).call = c := by
  rcases hq : fsRead fs2 a with _ | bytes
  · rcases hq2 : fsRead fs2 t with _ | bytes2 <;>
      simp [readArtifactAndCleanup, hq, hq2]
  · simp [readArtifactAndCleanup, hq]

/-- The result of the read-back block does not depend on the diagram call. -/
theorem readArtifactAndCleanup_result_congr (fs2 : FS) (a t : String)
    (c c' : DiagramCall) :
    (readArtifactAndCleanup fs2 a t c).result
      = (readArtifactAndCleanup fs2 a t c').result := by
  rcases hq : fsRead fs2 a with _ | bytes
  · rcases hq2 : fsRead fs2 t with _ | bytes2 <;>
      simp [readArtifactAndCleanup, hq, hq2]
  · simp [readArtifactAndCleanup, hq]

/-- Evaluation of a render call whose engine raises: the exception
propagates and the pre-created temp file is left in place. -/
theorem generate_raises_eval (msg : String) (tmpName : String)
    (g : ResourceGraph) (fmt ld : String) (fs0 : FS) :
    (generate_diagram_from_json (EngineBehavior.raises msg) tmpName g fmt ld fs0).result
        = RenderResult.err msg ∧
    (generate_diagram_from_json (EngineBehavior.raises msg) tmpName g fmt ld fs0).fs
        = fsWrite fs0 (tmpName ++ "." ++ fmt) [] :=
  ⟨rfl, rfl⟩

/-- Evaluation of a render call with the MockDiagram stand-in (no artifact
written): the pre-created empty temp file is read back and deleted. -/
theorem generate_mock_eval (tmpName : String) (g : ResourceGraph)
    (fmt ld : String) (fs0 : FS)
    (hstem : rsplitStem (tmpName ++ "." ++ fmt) = tmpName) :
    (generate_diagram_from_json EngineBehavior.mockDiagram tmpName g fmt ld fs0).result
        = RenderResult.ok [] ∧
    (generate_diagram_from_json EngineBehavior.mockDiagram tmpName g fmt ld fs0).fs
        = fsUnlink (fsWrite fs0 (tmpName ++ "." ++ fmt) []) (tmpName ++ "." ++ fmt) := by
  simp only [generate_diagram_from_json, readArtifactAndCleanup, hstem, fsRead_fsWrite_self]
  simp

/-- Evaluation of a render call whose engine writes `out`: the artifact
overwrites the temp file, is read back and deleted. -/
theorem generate_engine_eval (out : List Nat) (tmpName : String)
    (g : ResourceGraph) (fmt ld : String) (fs0 : FS)
    (hstem : rsplitStem (tmpName ++ "." ++ fmt) = tmpName) :
    (generate_diagram_from_json (EngineBehavior.engine out) tmpName g fmt ld fs0).result
        = RenderResult.ok out ∧
    (generate_diagram_from_json (EngineBehavior.engine out) tmpName g fmt ld fs0).fs
        = fsUnlink (fsWrite (fsWrite fs0 (tmpName ++ "." ++ fmt) [])
            (tmpName ++ "." ++ fmt) out) (tmpName ++ "." ++ fmt) := by
  simp only [generate_diagram_from_json, readArtifactAndCleanup, hstem, fsRead_fsWrite_self]
  simp

/-! ## Claim theorems: rendering I/O -/

/-- C9: the direction handed to the Diagram constructor is "TB" exactly
when the layout_direction argument equals "TB" and "LR" for every other
string (including invalid values like "RL" or ""), and the direction
argument never changes whether the render call succeeds or fails. -/
theorem layout_direction_semantics (eng : EngineBehavior) (tmpName : String)
    (g : ResourceGraph) (fmt ld : String) (fs0 : FS) :
    (generate_diagram_from_json eng tmpName g fmt ld fs0).call.direction
      = (if ld = "TB" then "TB" else "LR") ∧
    (generate_diagram_from_json eng tmpName g fmt ld fs0).result
      = (generate_diagram_from_json eng tmpName g fmt "TB" fs0).result := by
  constructor
  · have hc : (generate_diagram_from_json eng tmpName g fmt ld fs0).call.direction
        = (if (ld == "TB") = true then "TB" else "LR") := by
      cases eng <;>
        simp [generate_diagram_from_json, readArtifactAndCleanup_call]
    rw [hc]
    by_cases h : ld = "TB" <;> simp [h]
  · cases eng with
    | raises m => rfl
    | mockDiagram =>
      simp only [generate_diagram_from_json]
      exact readArtifactAndCleanup_result_congr _ _ _ _ _
    | engine out =>
      simp only [generate_diagram_from_json]
      exact readArtifactAndCleanup_result_congr _ _ _ _ _

/-- C4 counterexample: with the rendering engine unavailable (the
MockDiagram stand-in, which writes no output file), the render call does
NOT fail: the temporary file pre-created by NamedTemporaryFile sits at the
primary expected path, so the read succeeds and returns its empty
contents — no RenderError is raised and the successful byte buffer is
empty, contradicting the claim on both counts. -/
theorem render_error_counterexample :
    (generate_diagram_from_json EngineBehavior.mockDiagram "/tmp/t1" gEmpty
        "png" "TB" []).result = RenderResult.ok [] ∧
    ((generate_diagram_from_json EngineBehavior.mockDiagram "/tmp/t1" gEmpty
        "png" "TB" []).result).isError = false := by decide

/-- C4 amended: a render call fails exactly when the engine raises inside
the diagram scope (that exception propagates); because the temporary
output file is pre-created (with the format extension) at the primary
expected read path, an engine that produces no output file does not cause
an error — the pre-created file is read back, yielding a successful but
empty byte buffer — and the "file not found" RenderError is unreachable;
an engine that writes the artifact yields exactly its bytes. (Format
strings without a dot, e.g. "png"/"svg", make the stripped stem plus
extension equal the temp path.) -/
theorem render_failure_semantics (eng : EngineBehavior) (tmpName : String)
    (g : ResourceGraph) (fmt ld : String) (fs0 : FS)
    (hfmt : fmt.data.all (fun c => !(c == '.')) = true) :
    (∀ msg, eng = EngineBehavior.raises msg →
      (generate_diagram_from_json eng tmpName g fmt ld fs0).result
        = RenderResult.err msg) ∧
    (eng = EngineBehavior.mockDiagram →
      (generate_diagram_from_json eng tmpName g fmt ld fs0).result
        = RenderResult.ok []) ∧
    (∀ out, eng = EngineBehavior.engine out →
      (generate_diagram_from_json eng tmpName g fmt ld fs0).result
        = RenderResult.ok out) ∧
    ((∀ msg, eng ≠ EngineBehavior.raises msg) →
      (generate_diagram_from_json eng tmpName g fmt ld fs0).result
        ≠ RenderResult.err "Generated diagram file not found at expected location") := by
  have hstem := rsplitStem_append tmpName fmt hfmt
  refine ⟨?_, ?_, ?_, ?_⟩
  · intro msg he
    subst he
    exact (generate_raises_eval msg tmpName g fmt ld fs0).1
  · intro he
    subst he
    exact (generate_mock_eval tmpName g fmt ld fs0 hstem).1
  · intro out he
    subst he
    exact (generate_engine_eval out tmpName g fmt ld fs0 hstem).1
  · intro hne
    cases eng with
    | raises m => exact absurd rfl (hne m)
    | mockDiagram =>
      rw [(generate_mock_eval tmpName g fmt ld fs0 hstem).1]
      intro h
      cases h
    | engine out =>
      rw [(generate_engine_eval out tmpName g fmt ld fs0 hstem).1]
      intro h
      cases h

/-- C4 amended witness: a PNG-writing engine at a concrete temp path. -/
theorem render_failure_semantics_witness :
    (generate_diagram_from_json (EngineBehavior.engine [137, 80, 78, 71])
        "/tmp/t4" gEmpty "png" "TB" []).result
      = RenderResult.ok [137, 80, 78, 71] :=
  (render_failure_semantics (EngineBehavior.engine [137, 80, 78, 71]) "/tmp/t4"
    gEmpty "png" "TB" [] (by decide)).2.2.1 [137, 80, 78, 71] rfl

/-- C8 counterexample: when the rendering engine raises, no cleanup runs:
after the call the pre-created temporary file is still on disk (starting
from an empty filesystem, exactly it remains). -/
theorem render_cleanup_counterexample :
    (generate_diagram_from_json (EngineBehavior.raises "ExecutableNotFound")
        "/tmp/t2" gEmpty "png" "TB" []).fs = [("/tmp/t2.png", [])] := by decide

/-- C8 amended: the temporary file is deleted on the success paths (the
read file is unlinked, and for dot-free formats that file is the temp
file), but when the engine raises, the pre-created temporary file is NOT
deleted and remains on disk. -/
theorem render_cleanup (eng : EngineBehavior) (tmpName : String)
    (g : ResourceGraph) (fmt ld : String) (fs0 : FS)
    (hfmt : fmt.data.all (fun c => !(c == '.')) = true) :
    ((eng = EngineBehavior.mockDiagram ∨ (∃ out, eng = EngineBehavior.engine out)) →
      fsRead (generate_diagram_from_json eng tmpName g fmt ld fs0).fs
        (tmpName ++ "." ++ fmt) = none) ∧
    (∀ msg, eng = EngineBehavior.raises msg →
      fsRead (generate_diagram_from_json eng tmpName g fmt ld fs0).fs
        (tmpName ++ "." ++ fmt) = some []) := by
  have hstem := rsplitStem_append tmpName fmt hfmt
  constructor
  · intro h
    rcases h with he | ⟨out, he⟩ <;> subst he
    · rw [(generate_mock_eval tmpName g fmt ld fs0 hstem).2]
      exact fsRead_fsUnlink_self _ _
    · rw [(generate_engine_eval out tmpName g fmt ld fs0 hstem).2]
      exact fsRead_fsUnlink_self _ _
  · intro msg he
    subst he
    rw [(generate_raises_eval msg tmpName g fmt ld fs0).2]
    exact fsRead_fsWrite_self _ _ _

/-- C8 amended witness: after a successful MockDiagram render at a
concrete path, the temp file is gone. -/
theorem render_cleanup_witness :
    fsRead (generate_diagram_from_json EngineBehavior.mockDiagram "/tmp/t3"
        gEmpty "svg" "LR" []).fs ("/tmp/t3" ++ "." ++ "svg") = none :=
  (render_cleanup EngineBehavior.mockDiagram "/tmp/t3" gEmpty "svg" "LR" []
    (by decide)).1 (Or.inl rfl)

end AzureDiagrams
